import Mathlib

/-!
Verification of the per-block variable container of the Parthenon AMR
framework (`src/interface/meshblock_data.cpp`): variable registry and
selection, the variable-pack cache with allocation fingerprints, and the
boundary-exchange entry points.

The C++ template class `MeshBlockData<T>` is embedded shallowly: its
mutable state becomes the structure `MeshBlockData`, each member function
becomes a Lean function from state to state (paired with its return
value), and fatal errors (`PARTHENON_THROW`, `std::exit`, thrown
exceptions) become `Except.error`.  Pack objects, whose identity in the
C++ code is the identity of the cached `VariablePack` object, are modelled
by a build counter: every freshly built pack receives a new id.
-/

set_option autoImplicit false

namespace Parthenon

/-- Placement of a variable, `Metadata::Where()` in the source.  The
source branches on `Node`, `Edge`, `Face` and treats everything else as
cell-centered. -/
inductive MetadataLoc where
  | Node
  | Edge
  | Face
  | Cell
deriving DecidableEq, Repr

/-- Metadata flags used by `meshblock_data.cpp` (`OneCopy`, `FillGhost`,
`WithFluxes`) plus further flags so that flag queries are non-trivial. -/
inductive MetadataFlag where
  | OneCopy
  | FillGhost
  | Sparse
  | WithFluxes
  | Independent
  | Derived
deriving DecidableEq, Repr

/-- The metadata of a variable: its placement and its set of flags. -/
structure Metadata where
  Where : MetadataLoc
  flags : List MetadataFlag
deriving DecidableEq, Repr

/-- `Metadata::IsSet`. -/
def Metadata.IsSet (m : Metadata) (f : MetadataFlag) : Bool :=
  m.flags.contains f

/-- `Metadata::AllFlagsSet`. -/
def Metadata.AllFlagsSet (m : Metadata) (fs : List MetadataFlag) : Bool :=
  fs.all fun f => m.IsSet f

/-- `Metadata::AnyFlagsSet`. -/
def Metadata.AnyFlagsSet (m : Metadata) (fs : List MetadataFlag) : Bool :=
  fs.any fun f => m.IsSet f

/-- Modelled from the spec: the sentinel sparse id marking a dense
variable ("sparse_id is absent (or a sentinel) for dense variables"); the
defining header is not under src/.  Its concrete value is irrelevant. -/
def InvalidSparseID : Int := -1

/-- Modelled from the spec: a variable's identity is `(base_name,
sparse_id)`; `MakeVarLabel` (header not under src/) renders it as a label
string, the base name alone for dense variables. -/
def MakeVarLabel (base_name : String) (sparse_id : Int) : String :=
  if sparse_id = InvalidSparseID then base_name
  else base_name ++ "_" ++ toString sparse_id

/-- A cell-centered variable (`CellVariable<T>`).  Backing storage is
modelled by `storage_id`: two variables share storage exactly when their
`storage_id`s agree.  The boundary channel of a ghost-exchanged variable
(`vbvar`, external to src/) is modelled by the fields `boundaryReset`,
`postedPhase` and `local_neighbor_allocated`; `mpiStatus` is the
per-variable completion flag from the source. -/
structure CellVariable where
  label : String
  metadata : Metadata
  sparse_id : Int
  allocated : Bool := false
  storage_id : Nat := 0
  mpiStatus : Bool := true
  boundaryReset : Bool := false
  postedPhase : Option Nat := none
  local_neighbor_allocated : List Bool := []
deriving DecidableEq, Repr

/-- Modelled from the spec: a variable is sparse when its sparse id is
not the dense sentinel (`CellVariable::IsSparse`, header not under
src/). -/
def CellVariable.IsSparse (v : CellVariable) : Bool :=
  v.sparse_id != InvalidSparseID

/-- `CellVariable::GetSparseID`. -/
def CellVariable.GetSparseID (v : CellVariable) : Int :=
  v.sparse_id

/-- `CellVariable::IsSet` forwards to the metadata. -/
def CellVariable.IsSet (v : CellVariable) (f : MetadataFlag) : Bool :=
  v.metadata.IsSet f

/-- `CellVariable::IsAllocated`. -/
def CellVariable.IsAllocated (v : CellVariable) : Bool :=
  v.allocated

/-- `CellVariable::Allocate`: backing storage now exists. -/
def CellVariable.Allocate (v : CellVariable) : CellVariable :=
  { v with allocated := true }

/-- Modelled from the spec: `CellVariable::AllocateCopy` (variable code
not under src/) deep-duplicates a variable into fresh backing storage;
the fresh storage is a storage id unused so far. -/
def CellVariable.AllocateCopy (v : CellVariable) (fresh_storage : Nat) : CellVariable :=
  { v with storage_id := fresh_storage }

/-- A face-centered variable (`FaceVariable<T>`); only its label and
metadata matter to the claims. -/
structure FaceVariable where
  label : String
  metadata : Metadata
deriving DecidableEq, Repr

/-- A selection result: the ordered labels of the selected variables and
the allocation fingerprint, one `Bool` per listed variable
(`MeshBlockData<T>::VarLabelList` with `labels()` and
`alloc_status()`). -/
structure VarLabelList where
  labels : List String := []
  alloc_status : List Bool := []
deriving DecidableEq, Repr

/-- Modelled from the spec: `VarLabelList::Add` is declared in
`meshblock_data.hpp` (not under src/); a variable is included subject to
the sparse-id filter ("include it (subject to sparseIdFilter)"), and the
fingerprint records one allocation bit per listed variable. -/
def VarLabelList.Add (l : VarLabelList) (v : CellVariable) (sparse_ids : List Int) :
    VarLabelList :=
  if !sparse_ids.isEmpty && v.IsSparse && !(sparse_ids.contains v.GetSparseID) then l
  else { labels := l.labels ++ [v.label], alloc_status := l.alloc_status ++ [v.IsAllocated] }

/-- The status a task-style entry point reports to the scheduler. -/
inductive TaskStatus where
  | complete
  | incomplete
  | fail
deriving DecidableEq, Repr

/-- One cached entry of the variable-pack cache: the allocation
fingerprint recorded at build time and the identity of the built pack
(`PackIndxPair<T>` with `alloc_status` and `pack`). -/
structure PackIndxPair where
  alloc_status : List Bool
  pack_id : Nat
deriving DecidableEq, Repr

/-- One cached entry of the variables-and-fluxes pack cache
(`FluxPackIndxPair<T>`): both fingerprints and the pack identity. -/
structure FluxPackIndxPair where
  alloc_status : List Bool
  flux_alloc_status : List Bool
  pack_id : Nat
deriving DecidableEq, Repr

/-- Lookup in an association list with unique keys (`std::map::find`). -/
def lookupA {κ ε : Type} [DecidableEq κ] : List (κ × ε) → κ → Option ε
  | [], _ => none
  | (k, e) :: rest, q => if k = q then some e else lookupA rest q

/-- Erase the entry with the given key (`std::map::erase` of the found
iterator; keys are unique, so erasing the first match suffices). -/
def eraseA {κ ε : Type} [DecidableEq κ] : List (κ × ε) → κ → List (κ × ε)
  | [], _ => []
  | (k, e) :: rest, q => if k = q then rest else (k, e) :: eraseA rest q

/-- The resolved package schema (`StateDescriptor`) as the selection code
consumes it: the sparse pools, keyed by base name, each listing its
sparse ids.  `GetSparsePool` of an unknown name yields the empty pool
("otherwise we get an empty pool" in the source comment). -/
structure StateDescriptor where
  sparse_pools : List (String × List Int)
deriving DecidableEq, Repr

/-- `StateDescriptor::SparseBaseNamePresent`. -/
def StateDescriptor.SparseBaseNamePresent (sd : StateDescriptor) (name : String) : Bool :=
  (lookupA sd.sparse_pools name).isSome

/-- `StateDescriptor::GetSparsePool(...).pool()`: the pool's sparse ids,
empty for an unknown base name. -/
def StateDescriptor.GetSparsePool (sd : StateDescriptor) (name : String) : List Int :=
  (lookupA sd.sparse_pools name).getD []

/-- The state of one block's container (`MeshBlockData<T>`): the variable
registry (`varVector_`, `faceVector_`, the name-sorted maps `varMap_`,
`faceMap_`), the three pack caches, the resolved schema pointer, and the
counters that model object identity of freshly built packs and freshly
allocated storage. -/
structure MeshBlockData where
  varVector : List CellVariable := []
  faceVector : List FaceVariable := []
  varMap : List (String × CellVariable) := []
  faceMap : List (String × FaceVariable) := []
  varPackMap : List (List String × PackIndxPair) := []
  coarseVarPackMap : List (List String × PackIndxPair) := []
  varFluxPackMap : List ((List String × List String) × FluxPackIndxPair) := []
  resolved_packages : Option StateDescriptor := none
  next_pack_id : Nat := 0
  next_storage_id : Nat := 0
deriving DecidableEq, Repr

/-- The pack cache selected by the `coarse` flag
(`coarse ? coarseVarPackMap_ : varPackMap_`). -/
def MeshBlockData.packmapOf (s : MeshBlockData) (coarse : Bool) :
    List (List String × PackIndxPair) :=
  if coarse then s.coarseVarPackMap else s.varPackMap

/-- Replace the pack cache selected by the `coarse` flag. -/
def MeshBlockData.setPackmap (s : MeshBlockData) (coarse : Bool)
    (m : List (List String × PackIndxPair)) : MeshBlockData :=
  if coarse then { s with coarseVarPackMap := m } else { s with varPackMap := m }

/-- Build a fresh pack for `var_list`, insert it into the selected cache
keyed by the labels, and return it (the `make_new_pack` tail of
`PackListedVariables`); `packmap` is the cache after any stale-entry
erasure. -/
def MeshBlockData.buildAndInsertPack (s : MeshBlockData) (coarse : Bool)
    (var_list : VarLabelList) (packmap : List (List String × PackIndxPair)) :
    Nat × MeshBlockData :=
  let new_item : PackIndxPair :=
    { alloc_status := var_list.alloc_status, pack_id := s.next_pack_id }
  (s.next_pack_id,
    { s.setPackmap coarse ((var_list.labels, new_item) :: packmap) with
        next_pack_id := s.next_pack_id + 1 })

/-- `MeshBlockData<T>::PackListedVariables`: query the cache selected by
`coarse` under the label-list key; on a hit with matching allocation
fingerprint return the cached pack, otherwise erase any stale entry,
build a fresh pack and insert it. -/
def MeshBlockData.PackListedVariables (s : MeshBlockData) (var_list : VarLabelList)
    (coarse : Bool) : Nat × MeshBlockData :=
  let key := var_list.labels
  let packmap := s.packmapOf coarse
  match lookupA packmap key with
  | none => s.buildAndInsertPack coarse var_list packmap
  | some entry =>
    if var_list.alloc_status = entry.alloc_status then
      (entry.pack_id, s)
    else
      s.buildAndInsertPack coarse var_list (eraseA packmap key)

/-- Build a fresh variables-and-fluxes pack, insert it keyed by the pair
of label lists, and return it (the `make_new_pack` tail of
`PackListedVariablesAndFluxes`). -/
def MeshBlockData.buildAndInsertFluxPack (s : MeshBlockData)
    (var_list flux_list : VarLabelList)
    (packmap : List ((List String × List String) × FluxPackIndxPair)) :
    Nat × MeshBlockData :=
  let new_item : FluxPackIndxPair :=
    { alloc_status := var_list.alloc_status,
      flux_alloc_status := flux_list.alloc_status, pack_id := s.next_pack_id }
  (s.next_pack_id,
    { s with
        varFluxPackMap := ((var_list.labels, flux_list.labels), new_item) :: packmap,
        next_pack_id := s.next_pack_id + 1 })

/-- `MeshBlockData<T>::PackListedVariablesAndFluxes`: keyed by the pair
of label lists; the cached pack is returned only when both the variable
fingerprint and the flux fingerprint match, otherwise the stale entry is
erased and a fresh pack built and inserted. -/
def MeshBlockData.PackListedVariablesAndFluxes (s : MeshBlockData)
    (var_list flux_list : VarLabelList) : Nat × MeshBlockData :=
  let keys := (var_list.labels, flux_list.labels)
  match lookupA s.varFluxPackMap keys with
  | none => s.buildAndInsertFluxPack var_list flux_list s.varFluxPackMap
  | some entry =>
    if var_list.alloc_status ≠ entry.alloc_status ∨
        flux_list.alloc_status ≠ entry.flux_alloc_status then
      s.buildAndInsertFluxPack var_list flux_list (eraseA s.varFluxPackMap keys)
    else
      (entry.pack_id, s)

/-- Sorted insertion into a name-keyed map (`std::map` keeps its keys in
ascending order; assigning to an existing key overwrites). -/
def insertSortedCell (k : String) (v : CellVariable) :
    List (String × CellVariable) → List (String × CellVariable)
  | [] => [(k, v)]
  | (k2, v2) :: rest =>
    if k < k2 then (k, v) :: (k2, v2) :: rest
    else if k = k2 then (k, v) :: rest
    else (k2, v2) :: insertSortedCell k v rest

/-- Sorted insertion into the face-variable map. -/
def insertSortedFace (k : String) (v : FaceVariable) :
    List (String × FaceVariable) → List (String × FaceVariable)
  | [] => [(k, v)]
  | (k2, v2) :: rest =>
    if k < k2 then (k, v) :: (k2, v2) :: rest
    else if k = k2 then (k, v) :: rest
    else (k2, v2) :: insertSortedFace k v rest

/-- Modelled from the spec: `MeshBlockData::Add` for a cell variable
(declared in `meshblock_data.hpp`, not under src/) registers the variable
in `varVector_` and under its label in the name-sorted `varMap_`. -/
def MeshBlockData.AddCell (s : MeshBlockData) (v : CellVariable) : MeshBlockData :=
  { s with varVector := s.varVector ++ [v], varMap := insertSortedCell v.label v s.varMap }

/-- Modelled from the spec: `MeshBlockData::Add` for a face variable
registers it in `faceVector_` and the name-sorted `faceMap_`. -/
def MeshBlockData.AddFace (s : MeshBlockData) (v : FaceVariable) : MeshBlockData :=
  { s with faceVector := s.faceVector ++ [v], faceMap := insertSortedFace v.label v s.faceMap }

/-- `MeshBlockData<T>::AddField`: branch on the placement.  Node and edge
variables are fatal; a face variable must carry `OneCopy` and must not
carry `FillGhost`, else fatal; a cell variable is created and added, and
its storage allocated right away unless global sparse support is enabled
and the variable is sparse (`!Globals::sparse_config.enabled ||
!pvar->IsSparse()`).  The global flag `Globals::sparse_config.enabled` is
passed explicitly as `sparse_enabled`; fresh storage comes from the
container's storage counter. -/
def MeshBlockData.AddField (s : MeshBlockData) (sparse_enabled : Bool)
    (base_name : String) (metadata : Metadata) (sparse_id : Int) :
    Except String MeshBlockData :=
  if metadata.Where = MetadataLoc.Node then
    Except.error "Node variables are not implemented yet"
  else if metadata.Where = MetadataLoc.Edge then
    Except.error "Accessing unliving edge array in stage"
  else if metadata.Where = MetadataLoc.Face then
    if !(metadata.IsSet MetadataFlag.OneCopy) then
      Except.error "Currently one one-copy face fields are supported"
    else if metadata.IsSet MetadataFlag.FillGhost then
      Except.error "Ghost zones not yet supported for face fields"
    else
      Except.ok (s.AddFace { label := base_name, metadata := metadata })
  else
    let pvar : CellVariable :=
      { label := MakeVarLabel base_name sparse_id, metadata := metadata,
        sparse_id := sparse_id, allocated := false, storage_id := s.next_storage_id }
    let pvar2 := if !sparse_enabled || !pvar.IsSparse then pvar.Allocate else pvar
    Except.ok { s.AddCell pvar2 with next_storage_id := s.next_storage_id + 1 }

/-- The filter-and-add lambda `add_var` inside
`MeshBlockData<T>::CopyFrom`, acting on one cell variable of the source:
skip it when the flag filter or the sparse-id filter rejects it; share it
(register the very same variable) when the copy is shallow or the
variable carries `OneCopy`; otherwise register a deep copy with fresh
storage. -/
def copyAddVar (shallow_copy : Bool) (flags : List MetadataFlag) (sparse_ids : List Int)
    (st : MeshBlockData) (var : CellVariable) : MeshBlockData :=
  if !flags.isEmpty && !var.metadata.AnyFlagsSet flags then st
  else if !sparse_ids.isEmpty && var.IsSparse &&
      !(sparse_ids.contains var.GetSparseID) then st
  else if shallow_copy || var.IsSet MetadataFlag.OneCopy then st.AddCell var
  else
    { st.AddCell (var.AllocateCopy st.next_storage_id) with
        next_storage_id := st.next_storage_id + 1 }

/-- The `add_var` lambda acting on a face variable (face variables are
never sparse; `OneCopy` is mandatory for them, so they are shared). -/
def copyAddVarFace (shallow_copy : Bool) (flags : List MetadataFlag)
    (st : MeshBlockData) (var : FaceVariable) : MeshBlockData :=
  if !flags.isEmpty && !var.metadata.AnyFlagsSet flags then st
  else if shallow_copy || var.metadata.IsSet MetadataFlag.OneCopy then st.AddFace var
  else st.AddFace var

/-- The sparse-pool expansion inside `CopyFrom`'s name loop: add every
variable `MakeVarLabel name id` of the pool, reading it from the source's
`varMap_` with `at` (which throws when the pool variable is missing).
Returns the updated destination and whether anything was found. -/
def copyFromPool (shallow_copy : Bool) (flags : List MetadataFlag)
    (sparse_ids : List Int) (src : MeshBlockData) (name : String) :
    List Int → MeshBlockData → Except String (MeshBlockData × Bool)
  | [], st => Except.ok (st, false)
  | id :: rest, st =>
    match lookupA src.varMap (MakeVarLabel name id) with
    | none => Except.error "std::out_of_range: varMap_.at"
    | some v =>
      match copyFromPool shallow_copy flags sparse_ids src name rest
          (copyAddVar shallow_copy flags sparse_ids st v) with
      | Except.error e => Except.error e
      | Except.ok (st2, _) => Except.ok (st2, true)

/-- The name-resolution loop of `MeshBlockData<T>::CopyFrom`: each
requested name is looked up in the cell map, then the face map (a name in
both is a fatal duplicate), then expanded through the resolved packages'
sparse pool; a name that resolves to nothing is a fatal lookup error
reported with the offending name. -/
def copyFromNames (shallow_copy : Bool) (flags : List MetadataFlag)
    (sparse_ids : List Int) (src : MeshBlockData) :
    List String → MeshBlockData → Except String MeshBlockData
  | [], st => Except.ok st
  | name :: rest, st =>
    let found1 := (lookupA src.varMap name).isSome
    let st1 := match lookupA src.varMap name with
      | none => st
      | some v => copyAddVar shallow_copy flags sparse_ids st v
    match lookupA src.faceMap name with
    | some fv =>
      if found1 then
        Except.error ("MeshBlockData::CopyFrom: Variable '" ++ name ++
          "' found more than once")
      else
        copyFromNames shallow_copy flags sparse_ids src rest
          (copyAddVarFace shallow_copy flags st1 fv)
    | none =>
      if found1 then
        copyFromNames shallow_copy flags sparse_ids src rest st1
      else
        match src.resolved_packages with
        | none =>
          Except.error ("MeshBlockData::CopyFrom: Variable '" ++ name ++ "' not found")
        | some rp =>
          match copyFromPool shallow_copy flags sparse_ids src name
              (rp.GetSparsePool name) st1 with
          | Except.error e => Except.error e
          | Except.ok (st2, found2) =>
            if found2 then
              copyFromNames shallow_copy flags sparse_ids src rest st2
            else
              Except.error ("MeshBlockData::CopyFrom: Variable '" ++ name ++
                "' not found")

/-- `MeshBlockData<T>::CopyFrom`: build this container from a source
container.  With an empty name list every cell and face variable of the
source runs through `add_var`; otherwise the requested names are resolved
by `copyFromNames`.  The destination inherits the source's resolved
packages and storage counter. -/
def MeshBlockData.CopyFrom (src : MeshBlockData) (shallow_copy : Bool)
    (names : List String) (flags : List MetadataFlag) (sparse_ids : List Int) :
    Except String MeshBlockData :=
  let dst : MeshBlockData :=
    { resolved_packages := src.resolved_packages,
      next_storage_id := src.next_storage_id }
  if names.isEmpty then
    let dst1 := src.varVector.foldl (copyAddVar shallow_copy flags sparse_ids) dst
    Except.ok (src.faceVector.foldl (copyAddVarFace shallow_copy flags) dst1)
  else
    copyFromNames shallow_copy flags sparse_ids src names dst

/-- The per-name step of `MeshBlockData<T>::GetVariablesByName`: a name
matching a variable label is added; otherwise a name matching a sparse
base name expands to its whole pool (each pool variable read with `at`,
which throws when missing); any other name is skipped without error. -/
def getByNamePool (s : MeshBlockData) (sparse_ids : List Int) (name : String) :
    List Int → VarLabelList → Except String VarLabelList
  | [], var_list => Except.ok var_list
  | id :: rest, var_list =>
    match lookupA s.varMap (MakeVarLabel name id) with
    | none => Except.error "std::out_of_range: varMap_.at"
    | some v => getByNamePool s sparse_ids name rest (var_list.Add v sparse_ids)

/-- The name loop of `MeshBlockData<T>::GetVariablesByName`. -/
def getByNameLoop (s : MeshBlockData) (sparse_ids : List Int) :
    List String → VarLabelList → Except String VarLabelList
  | [], var_list => Except.ok var_list
  | name :: rest, var_list =>
    match lookupA s.varMap name with
    | some v => getByNameLoop s sparse_ids rest (var_list.Add v sparse_ids)
    | none =>
      match s.resolved_packages with
      | some rp =>
        if rp.SparseBaseNamePresent name then
          match getByNamePool s sparse_ids name (rp.GetSparsePool name) var_list with
          | Except.error e => Except.error e
          | Except.ok var_list2 => getByNameLoop s sparse_ids rest var_list2
        else
          getByNameLoop s sparse_ids rest var_list
      | none => getByNameLoop s sparse_ids rest var_list

/-- `MeshBlockData<T>::GetVariablesByName`: resolve each requested name
against the variable map, expanding sparse base names through the
resolved packages; unresolvable names are skipped.  The only error is the
`at` throw on a pool variable missing from the map. -/
def MeshBlockData.GetVariablesByName (s : MeshBlockData) (names : List String)
    (sparse_ids : List Int) : Except String VarLabelList :=
  getByNameLoop s sparse_ids names {}

/-- The inclusion test of `MeshBlockData<T>::GetVariablesByFlag`: the
flag list is empty, or all flags are set and we match all, or some flag
is set and we match any. -/
def flagMatch (flags : List MetadataFlag) (match_all : Bool) (v : CellVariable) : Bool :=
  flags.isEmpty || (match_all && v.metadata.AllFlagsSet flags) ||
    (!match_all && v.metadata.AnyFlagsSet flags)

/-- The iteration of `GetVariablesByFlag` over the name-sorted map. -/
def getByFlagLoop (flags : List MetadataFlag) (match_all : Bool) (sparse_ids : List Int) :
    List (String × CellVariable) → VarLabelList → VarLabelList
  | [], var_list => var_list
  | pair :: rest, var_list =>
    getByFlagLoop flags match_all sparse_ids rest
      (if flagMatch flags match_all pair.2 then var_list.Add pair.2 sparse_ids
       else var_list)

/-- `MeshBlockData<T>::GetVariablesByFlag`: walk `varMap_` (name-sorted)
and include every variable passing the flag test, subject to the
sparse-id filter. -/
def MeshBlockData.GetVariablesByFlag (s : MeshBlockData) (flags : List MetadataFlag)
    (match_all : Bool) (sparse_ids : List Int) : VarLabelList :=
  getByFlagLoop flags match_all sparse_ids s.varMap {}

/-- `MeshBlockData<T>::Remove`: unconditionally throws
`std::runtime_error`. -/
def MeshBlockData.Remove (s : MeshBlockData) (label : String) :
    Except String MeshBlockData :=
  Except.error "MeshBlockData<T>::Remove not yet implemented"

/-- The phase argument of the boundary entry points
(`BoundaryCommSubset`). -/
inductive BoundaryCommSubset where
  | mesh_init
  | gr_amr
  | all
deriving DecidableEq, Repr

/-- The phase as recorded in a posted receive (for the model's
`postedPhase` field). -/
def BoundaryCommSubset.toNat : BoundaryCommSubset → Nat
  | BoundaryCommSubset.mesh_init => 0
  | BoundaryCommSubset.gr_amr => 1
  | BoundaryCommSubset.all => 2

/-- Modelled from the spec: `CellVariable::resetBoundary` rebinds and
resets the variable's boundary channel (the boundary-variable code is not
under src/). -/
def CellVariable.resetBoundary (v : CellVariable) : CellVariable :=
  { v with boundaryReset := true }

/-- Modelled from the spec: `vbvar->StartReceiving(phase)` posts the
receive for this cycle on the variable's channel. -/
def CellVariable.vbvarStartReceiving (v : CellVariable) (phase : BoundaryCommSubset) :
    CellVariable :=
  { v with postedPhase := some phase.toNat }

/-- `MeshBlockData<T>::SetLocalNeighborAllocated`: for every
locally-resident neighbor block (given here by the neighbors' variable
vectors, position-aligned with this container as the source asserts), for
every ghost-filled variable, record whether that neighbor currently has
the variable allocated. -/
def MeshBlockData.SetLocalNeighborAllocated (s : MeshBlockData)
    (neighbors : List (List CellVariable)) : MeshBlockData :=
  { s with
      varVector := s.varVector.mapIdx fun i v =>
        if v.IsSet MetadataFlag.FillGhost then
          { v with
              local_neighbor_allocated :=
                neighbors.map fun nb => (nb.getD i v).IsAllocated }
        else v }

/-- The per-variable body of the `StartReceiving` loop: a ghost-filled
variable has its channel reset, its receive posted for the phase, and its
completion flag cleared; other variables are untouched. -/
def startReceivingVar (phase : BoundaryCommSubset) (v : CellVariable) : CellVariable :=
  if v.IsSet MetadataFlag.FillGhost then
    { (v.resetBoundary.vbvarStartReceiving phase) with mpiStatus := false }
  else v

/-- `MeshBlockData<T>::StartReceiving`: first sync the local neighbors'
allocation states, then reset and post every ghost-filled variable's
channel, clearing its completion flag; always reports `complete`. -/
def MeshBlockData.StartReceiving (s : MeshBlockData)
    (neighbors : List (List CellVariable)) (phase : BoundaryCommSubset) :
    TaskStatus × MeshBlockData :=
  let s1 := s.SetLocalNeighborAllocated neighbors
  (TaskStatus.complete,
    { s1 with varVector := s1.varVector.map (startReceivingVar phase) })

/-- The per-variable body of the `ReceiveBoundaryBuffers` loop: a
variable not yet complete and ghost-filled has its boundary reset and its
completion flag set to the poll's verdict, the poll receiving the
variable's label and its current allocation flag; all other variables are
untouched.  `poll` abstracts `vbvar->ReceiveBoundaryBuffers(IsAllocated)`
of the external transport. -/
def receiveVar (poll : String → Bool → Bool) (v : CellVariable) : CellVariable :=
  if !v.mpiStatus then
    if v.IsSet MetadataFlag.FillGhost then
      { v.resetBoundary with mpiStatus := poll v.label v.IsAllocated }
    else v
  else v

/-- The loop of `ReceiveBoundaryBuffers`: fold over the variable vector,
accumulating `ret` as the conjunction of the polled variables' new
completion flags. -/
def receiveLoop (poll : String → Bool → Bool) :
    List CellVariable → Bool × List CellVariable
  | [] => (true, [])
  | v :: rest =>
    let r := receiveLoop poll rest
    if !v.mpiStatus && v.IsSet MetadataFlag.FillGhost then
      let v2 := receiveVar poll v
      (v2.mpiStatus && r.1, v2 :: r.2)
    else
      (r.1, v :: r.2)

/-- `MeshBlockData<T>::ReceiveBoundaryBuffers`: poll every ghost-filled
variable not yet marked complete, record each verdict in the variable's
completion flag, and report `complete` exactly when the accumulated `ret`
stayed true; otherwise `incomplete`. -/
def MeshBlockData.ReceiveBoundaryBuffers (s : MeshBlockData)
    (poll : String → Bool → Bool) : TaskStatus × MeshBlockData :=
  let r := receiveLoop poll s.varVector
  ((if r.1 then TaskStatus.complete else TaskStatus.incomplete),
    { s with varVector := r.2 })

/-- Backing storage contents: a heap mapping storage ids to values.  Two
containers sharing a variable's storage read and write the same cell. -/
def Heap : Type := Nat → Int

/-- Write a value into one storage cell. -/
def writeStorage (h : Heap) (id : Nat) (val : Int) : Heap :=
  fun n => if n = id then val else h n

/-- Read a variable's storage through a container. -/
def readVar (h : Heap) (v : CellVariable) : Int :=
  h v.storage_id

/-- Well-formedness of a pack cache: keys are unique (`std::map`), the
pack identities are pairwise distinct, and every cached pack identity is
below the build counter. -/
def cacheWF {κ ε : Type} (pid : ε → Nat) (m : List (κ × ε)) (bound : Nat) : Prop :=
  (m.map Prod.fst).Nodup ∧ (m.map fun a => pid a.2).Nodup ∧ ∀ a ∈ m, pid a.2 < bound

/-- A requested name resolves to something in a source container: a cell
variable label, a face variable label, or a non-empty sparse pool of the
resolved packages. -/
def resolvable (src : MeshBlockData) (name : String) : Prop :=
  (lookupA src.varMap name).isSome = true ∨
  (lookupA src.faceMap name).isSome = true ∨
  (∃ rp, src.resolved_packages = some rp ∧ rp.GetSparsePool name ≠ [])

theorem lookupA_mem {κ ε : Type} [DecidableEq κ] {m : List (κ × ε)} {k : κ} {e : ε}
    (h : lookupA m k = some e) : (k, e) ∈ m := by
  induction m with
  | nil => simp [lookupA] at h
  | cons a rest ih =>
    obtain ⟨k1, e1⟩ := a
    by_cases hk : k1 = k
    · subst hk
      simp [lookupA] at h
      simp [h]
    · simp [lookupA, hk] at h
      exact List.mem_cons_of_mem _ (ih h)

theorem mem_eraseA {κ ε : Type} [DecidableEq κ] {m : List (κ × ε)} {k : κ} {a : κ × ε}
    (h : a ∈ eraseA m k) : a ∈ m := by
  induction m with
  | nil => simp [eraseA] at h
  | cons b rest ih =>
    obtain ⟨k1, e1⟩ := b
    by_cases hk : k1 = k
    · simp [eraseA, hk] at h
      exact List.mem_cons_of_mem _ h
    · simp [eraseA, hk] at h
      rcases h with h | h
      · simp [h]
      · exact List.mem_cons_of_mem _ (ih h)

theorem pid_not_mem_eraseA {κ ε : Type} [DecidableEq κ] (pid : ε → Nat)
    {m : List (κ × ε)} {k : κ} {e : ε}
    (h : lookupA m k = some e)
    (hkeys : (m.map Prod.fst).Nodup)
    (hids : (m.map fun a => pid a.2).Nodup) :
    pid e ∉ (eraseA m k).map fun a => pid a.2 := by
  induction m with
  | nil => simp [lookupA] at h
  | cons b rest ih =>
    obtain ⟨k1, e1⟩ := b
    simp only [List.map_cons, List.nodup_cons] at hkeys hids
    by_cases hk : k1 = k
    · subst hk
      simp [lookupA] at h
      subst h
      simpa [eraseA] using hids.1
    · simp only [lookupA, hk, if_false] at h
      have hmem : (k, e) ∈ rest := lookupA_mem h
      have hpid : pid e ∈ rest.map fun a => pid a.2 :=
        List.mem_map.mpr ⟨(k, e), hmem, rfl⟩
      have hne : pid e ≠ pid e1 := fun hh => hids.1 (hh ▸ hpid)
      have htail : pid e ∉ (eraseA rest k).map fun a => pid a.2 :=
        ih h hkeys.2 hids.2
      simp only [eraseA, hk, if_false, List.map_cons, List.mem_cons]
      rintro (hc | hc)
      · exact hne hc
      · exact htail hc

theorem buildAndInsertPack_fst (s : MeshBlockData) (coarse : Bool)
    (vl : VarLabelList) (pm : List (List String × PackIndxPair)) :
    (s.buildAndInsertPack coarse vl pm).1 = s.next_pack_id := rfl

theorem buildAndInsertPack_packmap (s : MeshBlockData) (coarse : Bool)
    (vl : VarLabelList) (pm : List (List String × PackIndxPair)) :
    ((s.buildAndInsertPack coarse vl pm).2).packmapOf coarse =
      (vl.labels,
        ({ alloc_status := vl.alloc_status, pack_id := s.next_pack_id } : PackIndxPair))
        :: pm := by
  cases coarse <;> rfl

theorem lookupA_buildAndInsertPack (s : MeshBlockData) (coarse : Bool)
    (vl : VarLabelList) (pm : List (List String × PackIndxPair)) :
    lookupA (((s.buildAndInsertPack coarse vl pm).2).packmapOf coarse) vl.labels =
      some { alloc_status := vl.alloc_status, pack_id := s.next_pack_id } := by
  rw [buildAndInsertPack_packmap]
  simp [lookupA]

theorem plv_hit (s : MeshBlockData) (vl : VarLabelList) (coarse : Bool)
    (entry : PackIndxPair)
    (hfind : lookupA (s.packmapOf coarse) vl.labels = some entry)
    (halloc : vl.alloc_status = entry.alloc_status) :
    s.PackListedVariables vl coarse = (entry.pack_id, s) := by
  simp [MeshBlockData.PackListedVariables, hfind, halloc]

theorem plv_build_of_none (s : MeshBlockData) (vl : VarLabelList) (coarse : Bool)
    (hfind : lookupA (s.packmapOf coarse) vl.labels = none) :
    s.PackListedVariables vl coarse =
      s.buildAndInsertPack coarse vl (s.packmapOf coarse) := by
  simp [MeshBlockData.PackListedVariables, hfind]

theorem plv_build_of_stale (s : MeshBlockData) (vl : VarLabelList) (coarse : Bool)
    (entry : PackIndxPair)
    (hfind : lookupA (s.packmapOf coarse) vl.labels = some entry)
    (halloc : vl.alloc_status ≠ entry.alloc_status) :
    s.PackListedVariables vl coarse =
      s.buildAndInsertPack coarse vl (eraseA (s.packmapOf coarse) vl.labels) := by
  simp [MeshBlockData.PackListedVariables, hfind, halloc]

theorem plv_snd_of_build (s : MeshBlockData) (vl : VarLabelList) (coarse : Bool)
    (pm : List (List String × PackIndxPair)) :
    (((s.buildAndInsertPack coarse vl pm).2).PackListedVariables vl coarse).1 =
      (s.buildAndInsertPack coarse vl pm).1 := by
  rw [plv_hit (s.buildAndInsertPack coarse vl pm).2 vl coarse
    { alloc_status := vl.alloc_status, pack_id := s.next_pack_id }
    (lookupA_buildAndInsertPack s coarse vl pm) rfl]
  rfl

/-- C1: a pack-retrieval call through the cache returns the cached pack
exactly when an entry under the selection key stores the live allocation
fingerprint; on a missing or stale entry it discards the stale entry,
builds a fresh pack, inserts it under (selection key, coarse flag) and
returns it — so two calls with no allocation change return the identical
pack, and after an allocation change a fresh pack is returned and the old
pack is no longer held by the cache. -/
theorem packListedVariables_cache_correct
    (s : MeshBlockData) (vl : VarLabelList) (coarse : Bool)
    (hwf : cacheWF PackIndxPair.pack_id (s.packmapOf coarse) s.next_pack_id) :
    (∀ entry, lookupA (s.packmapOf coarse) vl.labels = some entry →
      vl.alloc_status = entry.alloc_status →
      s.PackListedVariables vl coarse = (entry.pack_id, s)) ∧
    (((s.PackListedVariables vl coarse).2.PackListedVariables vl coarse).1 =
      (s.PackListedVariables vl coarse).1) ∧
    (lookupA (s.packmapOf coarse) vl.labels = none →
      (s.PackListedVariables vl coarse).1 = s.next_pack_id ∧
      lookupA ((s.PackListedVariables vl coarse).2.packmapOf coarse) vl.labels =
        some { alloc_status := vl.alloc_status, pack_id := s.next_pack_id }) ∧
    (∀ entry, lookupA (s.packmapOf coarse) vl.labels = some entry →
      vl.alloc_status ≠ entry.alloc_status →
      (s.PackListedVariables vl coarse).1 = s.next_pack_id ∧
      ((s.PackListedVariables vl coarse).1 ∉
        (s.packmapOf coarse).map fun a => a.2.pack_id) ∧
      (entry.pack_id ∉
        ((s.PackListedVariables vl coarse).2.packmapOf coarse).map
          fun a => a.2.pack_id) ∧
      lookupA ((s.PackListedVariables vl coarse).2.packmapOf coarse) vl.labels =
        some { alloc_status := vl.alloc_status, pack_id := s.next_pack_id }) := by
  refine ⟨?_, ?_, ?_, ?_⟩
  · intro entry hfind halloc
    exact plv_hit s vl coarse entry hfind halloc
  · rcases hcase : lookupA (s.packmapOf coarse) vl.labels with _ | entry
    · rw [plv_build_of_none s vl coarse hcase]
      exact plv_snd_of_build s vl coarse (s.packmapOf coarse)
    · by_cases halloc : vl.alloc_status = entry.alloc_status
      · rw [plv_hit s vl coarse entry hcase halloc,
          plv_hit s vl coarse entry hcase halloc]
      · rw [plv_build_of_stale s vl coarse entry hcase halloc]
        exact plv_snd_of_build s vl coarse (eraseA (s.packmapOf coarse) vl.labels)
  · intro hcase
    rw [plv_build_of_none s vl coarse hcase]
    exact ⟨buildAndInsertPack_fst s coarse vl _,
      lookupA_buildAndInsertPack s coarse vl _⟩
  · intro entry hfind halloc
    have h1 := plv_build_of_stale s vl coarse entry hfind halloc
    obtain ⟨hkeys, hids, hbound⟩ := hwf
    have hmem : (vl.labels, entry) ∈ s.packmapOf coarse := lookupA_mem hfind
    have hentry_lt : entry.pack_id < s.next_pack_id := hbound _ hmem
    refine ⟨by rw [h1]; rfl, ?_, ?_, ?_⟩
    · rw [h1, buildAndInsertPack_fst]
      intro hc
      rcases List.mem_map.mp hc with ⟨a, hamem, haeq⟩
      exact absurd (haeq ▸ hbound _ hamem) (lt_irrefl _)
    · rw [h1, buildAndInsertPack_packmap]
      simp only [List.map_cons, List.mem_cons]
      rintro (hc | hc)
      · exact absurd hc (Nat.ne_of_lt hentry_lt)
      · exact pid_not_mem_eraseA PackIndxPair.pack_id hfind hkeys hids hc
    · rw [h1]
      exact lookupA_buildAndInsertPack s coarse vl _

/-- Witness for C1 at a concrete container: a repeated retrieval with an
unchanged fingerprint returns the identical pack. -/
theorem packListedVariables_cache_correct_witness :
    ((({} : MeshBlockData).PackListedVariables
        { labels := ["a"], alloc_status := [true] } false).2.PackListedVariables
        { labels := ["a"], alloc_status := [true] } false).1 =
      (({} : MeshBlockData).PackListedVariables
        { labels := ["a"], alloc_status := [true] } false).1 :=
  (packListedVariables_cache_correct {} { labels := ["a"], alloc_status := [true] } false
    (by simp [cacheWF, MeshBlockData.packmapOf])).2.1

theorem buildAndInsertFluxPack_fst (s : MeshBlockData) (vl fl : VarLabelList)
    (pm : List ((List String × List String) × FluxPackIndxPair)) :
    (s.buildAndInsertFluxPack vl fl pm).1 = s.next_pack_id := rfl

theorem buildAndInsertFluxPack_map (s : MeshBlockData) (vl fl : VarLabelList)
    (pm : List ((List String × List String) × FluxPackIndxPair)) :
    ((s.buildAndInsertFluxPack vl fl pm).2).varFluxPackMap =
      ((vl.labels, fl.labels),
        ({ alloc_status := vl.alloc_status, flux_alloc_status := fl.alloc_status,
           pack_id := s.next_pack_id } : FluxPackIndxPair)) :: pm := rfl

theorem lookupA_buildAndInsertFluxPack (s : MeshBlockData) (vl fl : VarLabelList)
    (pm : List ((List String × List String) × FluxPackIndxPair)) :
    lookupA (((s.buildAndInsertFluxPack vl fl pm).2).varFluxPackMap)
        (vl.labels, fl.labels) =
      some { alloc_status := vl.alloc_status, flux_alloc_status := fl.alloc_status,
             pack_id := s.next_pack_id } := by
  rw [buildAndInsertFluxPack_map]
  simp [lookupA]

theorem plvf_hit (s : MeshBlockData) (vl fl : VarLabelList) (entry : FluxPackIndxPair)
    (hfind : lookupA s.varFluxPackMap (vl.labels, fl.labels) = some entry)
    (halloc : vl.alloc_status = entry.alloc_status)
    (hflux : fl.alloc_status = entry.flux_alloc_status) :
    s.PackListedVariablesAndFluxes vl fl = (entry.pack_id, s) := by
  simp [MeshBlockData.PackListedVariablesAndFluxes, hfind, halloc, hflux]

theorem plvf_build_of_none (s : MeshBlockData) (vl fl : VarLabelList)
    (hfind : lookupA s.varFluxPackMap (vl.labels, fl.labels) = none) :
    s.PackListedVariablesAndFluxes vl fl =
      s.buildAndInsertFluxPack vl fl s.varFluxPackMap := by
  simp [MeshBlockData.PackListedVariablesAndFluxes, hfind]

theorem plvf_build_of_stale (s : MeshBlockData) (vl fl : VarLabelList)
    (entry : FluxPackIndxPair)
    (hfind : lookupA s.varFluxPackMap (vl.labels, fl.labels) = some entry)
    (halloc : vl.alloc_status ≠ entry.alloc_status ∨
      fl.alloc_status ≠ entry.flux_alloc_status) :
    s.PackListedVariablesAndFluxes vl fl =
      s.buildAndInsertFluxPack vl fl
        (eraseA s.varFluxPackMap (vl.labels, fl.labels)) := by
  simp only [MeshBlockData.PackListedVariablesAndFluxes, hfind]
  rw [if_pos halloc]

/-- C3: the variables-and-fluxes pack cache keys its entries on the pair
of label lists; with both the stored variable fingerprint and the stored
flux fingerprint equal to the live ones, the cached pack is returned
unchanged; when either differs, or no entry exists, the stale entry is
discarded and a freshly built pack inserted under the pair key. -/
theorem packListedVariablesAndFluxes_cache_correct
    (s : MeshBlockData) (vl fl : VarLabelList)
    (hwf : cacheWF FluxPackIndxPair.pack_id s.varFluxPackMap s.next_pack_id) :
    (∀ entry, lookupA s.varFluxPackMap (vl.labels, fl.labels) = some entry →
      vl.alloc_status = entry.alloc_status →
      fl.alloc_status = entry.flux_alloc_status →
      s.PackListedVariablesAndFluxes vl fl = (entry.pack_id, s)) ∧
    (lookupA s.varFluxPackMap (vl.labels, fl.labels) = none →
      (s.PackListedVariablesAndFluxes vl fl).1 = s.next_pack_id ∧
      lookupA ((s.PackListedVariablesAndFluxes vl fl).2).varFluxPackMap
          (vl.labels, fl.labels) =
        some { alloc_status := vl.alloc_status, flux_alloc_status := fl.alloc_status,
               pack_id := s.next_pack_id }) ∧
    (∀ entry, lookupA s.varFluxPackMap (vl.labels, fl.labels) = some entry →
      vl.alloc_status ≠ entry.alloc_status ∨
        fl.alloc_status ≠ entry.flux_alloc_status →
      (s.PackListedVariablesAndFluxes vl fl).1 = s.next_pack_id ∧
      ((s.PackListedVariablesAndFluxes vl fl).1 ∉
        s.varFluxPackMap.map fun a => a.2.pack_id) ∧
      (entry.pack_id ∉
        ((s.PackListedVariablesAndFluxes vl fl).2).varFluxPackMap.map
          fun a => a.2.pack_id) ∧
      lookupA ((s.PackListedVariablesAndFluxes vl fl).2).varFluxPackMap
          (vl.labels, fl.labels) =
        some { alloc_status := vl.alloc_status, flux_alloc_status := fl.alloc_status,
               pack_id := s.next_pack_id }) := by
  refine ⟨?_, ?_, ?_⟩
  · intro entry hfind halloc hflux
    exact plvf_hit s vl fl entry hfind halloc hflux
  · intro hcase
    rw [plvf_build_of_none s vl fl hcase]
    exact ⟨buildAndInsertFluxPack_fst s vl fl _,
      lookupA_buildAndInsertFluxPack s vl fl _⟩
  · intro entry hfind halloc
    have h1 := plvf_build_of_stale s vl fl entry hfind halloc
    obtain ⟨hkeys, hids, hbound⟩ := hwf
    have hmem : ((vl.labels, fl.labels), entry) ∈ s.varFluxPackMap := lookupA_mem hfind
    have hentry_lt : entry.pack_id < s.next_pack_id := hbound _ hmem
    refine ⟨by rw [h1]; rfl, ?_, ?_, ?_⟩
    · rw [h1, buildAndInsertFluxPack_fst]
      intro hc
      rcases List.mem_map.mp hc with ⟨a, hamem, haeq⟩
      exact absurd (haeq ▸ hbound _ hamem) (lt_irrefl _)
    · rw [h1, buildAndInsertFluxPack_map]
      simp only [List.map_cons, List.mem_cons]
      rintro (hc | hc)
      · exact absurd hc (Nat.ne_of_lt hentry_lt)
      · exact pid_not_mem_eraseA FluxPackIndxPair.pack_id hfind hkeys hids hc
    · rw [h1]
      exact lookupA_buildAndInsertFluxPack s vl fl _

/-- Witness for C3 at a concrete container: with no cache entry, the
first retrieval builds pack 0 and inserts it under the pair key. -/
theorem packListedVariablesAndFluxes_cache_correct_witness :
    (({} : MeshBlockData).PackListedVariablesAndFluxes
        { labels := ["a"], alloc_status := [true] }
        { labels := ["f"], alloc_status := [false] }).1 = 0 ∧
    lookupA ((({} : MeshBlockData).PackListedVariablesAndFluxes
          { labels := ["a"], alloc_status := [true] }
          { labels := ["f"], alloc_status := [false] }).2).varFluxPackMap
        (["a"], ["f"]) =
      some { alloc_status := [true], flux_alloc_status := [false], pack_id := 0 } :=
  (packListedVariablesAndFluxes_cache_correct {}
    { labels := ["a"], alloc_status := [true] }
    { labels := ["f"], alloc_status := [false] }
    (by simp [cacheWF])).2.1 (by simp [lookupA])

/-- C10: the public `Remove` unconditionally fails by throwing a runtime
error and never deletes a variable: no call ever yields an updated
registry. -/
theorem remove_unimplemented (s : MeshBlockData) (label : String) :
    s.Remove label =
      Except.error "MeshBlockData<T>::Remove not yet implemented" ∧
    ∀ s2, s.Remove label ≠ Except.ok s2 := by
  refine ⟨rfl, ?_⟩
  intro s2 h
  simp [MeshBlockData.Remove] at h

/-- Witness for C10 at a concrete container and label. -/
theorem remove_unimplemented_witness :
    ({} : MeshBlockData).Remove "advected" =
      Except.error "MeshBlockData<T>::Remove not yet implemented" :=
  (remove_unimplemented {} "advected").1

/-- C7: adding a face-centered variable is a reported fatal error exactly
when the `OneCopy` flag is missing or the `FillGhost` flag is present; a
face variable is added only when it carries `OneCopy` and lacks
`FillGhost`. -/
theorem addField_face_requirements (s : MeshBlockData) (sparse_enabled : Bool)
    (base_name : String) (md : Metadata) (sparse_id : Int)
    (hface : md.Where = MetadataLoc.Face) :
    ((md.IsSet MetadataFlag.OneCopy = false ∨ md.IsSet MetadataFlag.FillGhost = true) ↔
      ∃ msg, s.AddField sparse_enabled base_name md sparse_id = Except.error msg) ∧
    (md.IsSet MetadataFlag.OneCopy = true → md.IsSet MetadataFlag.FillGhost = false →
      s.AddField sparse_enabled base_name md sparse_id =
        Except.ok (s.AddFace { label := base_name, metadata := md })) := by
  cases hoc : md.IsSet MetadataFlag.OneCopy <;>
    cases hfg : md.IsSet MetadataFlag.FillGhost <;>
      simp [MeshBlockData.AddField, hface, hoc, hfg]

/-- Witness for C7: a face variable lacking `OneCopy` is rejected, one
with `OneCopy` and no `FillGhost` is added. -/
theorem addField_face_requirements_witness :
    (∃ msg, ({} : MeshBlockData).AddField false "B1"
      { Where := MetadataLoc.Face, flags := [] } (-1) = Except.error msg) ∧
    (({} : MeshBlockData).AddField false "B2"
      { Where := MetadataLoc.Face, flags := [MetadataFlag.OneCopy] } (-1) =
      Except.ok (({} : MeshBlockData).AddFace
        { label := "B2",
          metadata := { Where := MetadataLoc.Face, flags := [MetadataFlag.OneCopy] } })) :=
  ⟨(addField_face_requirements {} false "B1"
      { Where := MetadataLoc.Face, flags := [] } (-1) rfl).1.mp (Or.inl (by decide)),
   (addField_face_requirements {} false "B2"
      { Where := MetadataLoc.Face, flags := [MetadataFlag.OneCopy] } (-1) rfl).2
     (by decide) (by decide)⟩

/-- C6: a cell-centered variable is added with its storage allocated
immediately, except that with global sparse support enabled a sparse
variable is added unallocated (deferred to the sparse allocation
policy). -/
theorem addField_cell_allocation (s : MeshBlockData) (sparse_enabled : Bool)
    (base_name : String) (md : Metadata) (sparse_id : Int)
    (hcell : md.Where = MetadataLoc.Cell) :
    s.AddField sparse_enabled base_name md sparse_id =
      Except.ok { s.AddCell
        { label := MakeVarLabel base_name sparse_id, metadata := md,
          sparse_id := sparse_id,
          allocated := !sparse_enabled || !(sparse_id != InvalidSparseID),
          storage_id := s.next_storage_id }
        with next_storage_id := s.next_storage_id + 1 } ∧
    ((!sparse_enabled || !(sparse_id != InvalidSparseID)) = true ↔
      ¬(sparse_enabled = true ∧ sparse_id ≠ InvalidSparseID)) := by
  constructor
  · cases hb : (!sparse_enabled || !(sparse_id != InvalidSparseID)) <;>
      simp [MeshBlockData.AddField, hcell, CellVariable.IsSparse,
        CellVariable.Allocate, hb]
  · cases sparse_enabled <;> simp [InvalidSparseID]

/-- Witness for C6: with sparse support enabled, a sparse cell variable
(sparse id 3) is added unallocated. -/
theorem addField_cell_allocation_witness :
    ({} : MeshBlockData).AddField true "q"
        { Where := MetadataLoc.Cell, flags := [MetadataFlag.Sparse] } 3 =
      Except.ok { ({} : MeshBlockData).AddCell
        { label := MakeVarLabel "q" 3,
          metadata := { Where := MetadataLoc.Cell, flags := [MetadataFlag.Sparse] },
          sparse_id := 3,
          allocated := !true || !((3 : Int) != InvalidSparseID),
          storage_id := ({} : MeshBlockData).next_storage_id }
        with next_storage_id := ({} : MeshBlockData).next_storage_id + 1 } :=
  (addField_cell_allocation {} true "q"
    { Where := MetadataLoc.Cell, flags := [MetadataFlag.Sparse] } 3 rfl).1

theorem copyAddVar_selected (shallow_copy : Bool) (flags : List MetadataFlag)
    (sparse_ids : List Int) (st : MeshBlockData) (var : CellVariable)
    (hfl : (!flags.isEmpty && !var.metadata.AnyFlagsSet flags) = false)
    (hsp : (!sparse_ids.isEmpty && var.IsSparse &&
      !(sparse_ids.contains var.GetSparseID)) = false) :
    copyAddVar shallow_copy flags sparse_ids st var =
      if shallow_copy || var.IsSet MetadataFlag.OneCopy then st.AddCell var
      else
        { st.AddCell (var.AllocateCopy st.next_storage_id) with
            next_storage_id := st.next_storage_id + 1 } := by
  unfold copyAddVar
  simp only [hfl, hsp, Bool.false_eq_true, if_false]

/-- C5: under `CopyFrom`'s per-variable filter, a selected variable with
the `OneCopy` flag is registered by reference — the identical variable,
with the identical storage — whatever the shallow flag says, so a write
to its storage is read back through either container; every other
selected variable is deep-duplicated into fresh storage when the copy is
not shallow. -/
theorem copyFrom_add_var_one_copy_sharing
    (flags : List MetadataFlag) (sparse_ids : List Int)
    (st : MeshBlockData) (var : CellVariable)
    (hfl : (!flags.isEmpty && !var.metadata.AnyFlagsSet flags) = false)
    (hsp : (!sparse_ids.isEmpty && var.IsSparse &&
      !(sparse_ids.contains var.GetSparseID)) = false) :
    (var.IsSet MetadataFlag.OneCopy = true →
      (∀ shallow_copy, copyAddVar shallow_copy flags sparse_ids st var =
        st.AddCell var) ∧
      (∀ heap val, readVar (writeStorage heap var.storage_id val) var = val)) ∧
    (var.IsSet MetadataFlag.OneCopy = false →
      copyAddVar false flags sparse_ids st var =
        { st.AddCell (var.AllocateCopy st.next_storage_id) with
            next_storage_id := st.next_storage_id + 1 } ∧
      (var.AllocateCopy st.next_storage_id).storage_id = st.next_storage_id ∧
      (var.storage_id ≠ st.next_storage_id →
        (var.AllocateCopy st.next_storage_id).storage_id ≠ var.storage_id)) := by
  constructor
  · intro hoc
    constructor
    · intro shallow_copy
      rw [copyAddVar_selected shallow_copy flags sparse_ids st var hfl hsp]
      simp [hoc]
    · intro heap val
      simp [readVar, writeStorage]
  · intro hoc
    refine ⟨?_, rfl, ?_⟩
    · rw [copyAddVar_selected false flags sparse_ids st var hfl hsp]
      simp [hoc]
    · intro hne hc
      exact hne (hc ▸ rfl)

/-- Witness for C5: a `OneCopy` variable is shared even by a deep copy
(`shallow = false`), and a write through its storage is read back. -/
theorem copyFrom_add_var_one_copy_sharing_witness :
    (copyAddVar false [] []
      ({} : MeshBlockData)
      { label := "face_like", sparse_id := -1,
        metadata := { Where := MetadataLoc.Cell, flags := [MetadataFlag.OneCopy] },
        storage_id := 7 } =
      ({} : MeshBlockData).AddCell
        { label := "face_like", sparse_id := -1,
          metadata := { Where := MetadataLoc.Cell, flags := [MetadataFlag.OneCopy] },
          storage_id := 7 }) ∧
    readVar (writeStorage (fun _ => 0) 7 42)
      { label := "face_like", sparse_id := -1,
        metadata := { Where := MetadataLoc.Cell, flags := [MetadataFlag.OneCopy] },
        storage_id := 7 } = 42 := by
  have h := (copyFrom_add_var_one_copy_sharing [] [] {}
    { label := "face_like", sparse_id := -1,
      metadata := { Where := MetadataLoc.Cell, flags := [MetadataFlag.OneCopy] },
      storage_id := 7 } (by decide) (by decide)).1 (by decide)
  exact ⟨h.1 false, h.2 (fun _ => 0) 42⟩

/-- Counterexample to C2 as stated: `GetVariablesByName` does not fail on
a name that resolves to nothing — on an empty registry it returns an
empty selection with no error, silently omitting the unresolvable
name. -/
theorem getVariablesByName_silently_omits :
    ({} : MeshBlockData).GetVariablesByName ["not_present"] [] =
      Except.ok ({ labels := [], alloc_status := [] } : VarLabelList) ∧
    ¬∃ msg, ({} : MeshBlockData).GetVariablesByName ["not_present"] [] =
      Except.error msg := by
  constructor
  · rfl
  · rintro ⟨msg, h⟩
    simp [MeshBlockData.GetVariablesByName, getByNameLoop, lookupA] at h

theorem copyFromPool_found {shallow_copy : Bool} {flags : List MetadataFlag}
    {sparse_ids : List Int} {src : MeshBlockData} {name : String}
    {pool : List Int} {st st2 : MeshBlockData}
    (h : copyFromPool shallow_copy flags sparse_ids src name pool st =
      Except.ok (st2, true)) : pool ≠ [] := by
  cases pool with
  | nil => simp [copyFromPool] at h
  | cons a rest => simp

theorem copyFromNames_ok_resolvable {shallow_copy : Bool} {flags : List MetadataFlag}
    {sparse_ids : List Int} {src : MeshBlockData} :
    ∀ (names : List String) (dst st2 : MeshBlockData),
      copyFromNames shallow_copy flags sparse_ids src names dst = Except.ok st2 →
      ∀ name ∈ names, resolvable src name := by
  intro names
  induction names with
  | nil => intro dst st2 _ name hmem; simp at hmem
  | cons name rest ih =>
    intro dst st2 h nm hmem
    rcases List.mem_cons.mp hmem with hnm | hnm
    · subst hnm
      rcases hv : lookupA src.varMap nm with _ | v <;>
        rcases hf : lookupA src.faceMap nm with _ | fv
      · -- neither a cell nor a face variable: only the sparse pool remains
        rcases hrp : src.resolved_packages with _ | rp
        · simp [copyFromNames, hv, hf, hrp] at h
        · rcases hcp : copyFromPool shallow_copy flags sparse_ids src nm
              (rp.GetSparsePool nm) dst with e | p
          · simp [copyFromNames, hv, hf, hrp, hcp] at h
          · obtain ⟨st3, found2⟩ := p
            cases found2 with
            | false => simp [copyFromNames, hv, hf, hrp, hcp] at h
            | true =>
              exact Or.inr (Or.inr ⟨rp, hrp, copyFromPool_found hcp⟩)
      · exact Or.inr (Or.inl (by simp [hf]))
      · exact Or.inl (by simp [hv])
      · exact Or.inl (by simp [hv])
    · -- the name sits in the tail: peel off the head and recurse
      rcases hv : lookupA src.varMap name with _ | v <;>
        rcases hf : lookupA src.faceMap name with _ | fv <;>
        simp only [copyFromNames, hv, hf, Option.isSome_none, Option.isSome_some,
          Bool.false_eq_true, if_false, if_true] at h
      · rcases hrp : src.resolved_packages with _ | rp
        · simp [hrp] at h
        · rcases hcp : copyFromPool shallow_copy flags sparse_ids src name
              (rp.GetSparsePool name) dst with e | p
          · simp [hrp, hcp] at h
          · obtain ⟨st3, found2⟩ := p
            cases found2 with
            | false => simp [hrp, hcp] at h
            | true =>
              rw [hrp] at h
              simp only [hcp] at h
              exact ih _ _ (by simpa using h) nm hnm
      · exact ih _ _ h nm hnm
      · exact ih _ _ h nm hnm
      · simp at h

/-- C2 (amended): the by-name selection used by `CopyFrom` fails with a
reported lookup error whenever a requested name resolves to nothing —
a `CopyFrom` call that succeeds had every requested name resolvable;
`GetVariablesByName` itself, however, silently omits unresolvable names
(see the counterexample). -/
theorem copyFrom_lookup_error (src : MeshBlockData) (shallow_copy : Bool)
    (names : List String) (flags : List MetadataFlag) (sparse_ids : List Int)
    (st2 : MeshBlockData)
    (hok : src.CopyFrom shallow_copy names flags sparse_ids = Except.ok st2) :
    ∀ name ∈ names, resolvable src name := by
  intro name hmem
  cases names with
  | nil => simp at hmem
  | cons n rest =>
    simp only [MeshBlockData.CopyFrom, List.isEmpty_cons, Bool.false_eq_true,
      if_false] at hok
    exact copyFromNames_ok_resolvable (n :: rest) _ st2 hok name hmem

/-- Witness for C2's amended theorem: a successful `CopyFrom` by name
had its requested name resolvable. -/
theorem copyFrom_lookup_error_witness :
    resolvable
      ({ varMap := [("rho",
          { label := "rho", sparse_id := -1,
            metadata := { Where := MetadataLoc.Cell, flags := [] } })] } : MeshBlockData)
      "rho" :=
  copyFrom_lookup_error
    { varMap := [("rho",
        { label := "rho", sparse_id := -1,
          metadata := { Where := MetadataLoc.Cell, flags := [] } })] }
    true ["rho"] [] []
    (({} : MeshBlockData).AddCell
      { label := "rho", sparse_id := -1,
        metadata := { Where := MetadataLoc.Cell, flags := [] } })
    (by rfl) "rho" (by simp)

theorem getByFlagLoop_spec (flags : List MetadataFlag) (match_all : Bool) :
    ∀ (m : List (String × CellVariable)) (acc : VarLabelList),
      getByFlagLoop flags match_all [] m acc =
        { labels := acc.labels ++
            (m.filter fun p => flagMatch flags match_all p.2).map fun p => p.2.label,
          alloc_status := acc.alloc_status ++
            (m.filter fun p => flagMatch flags match_all p.2).map
              fun p => p.2.IsAllocated } := by
  intro m
  induction m with
  | nil => intro acc; simp [getByFlagLoop]
  | cons p rest ih =>
    intro acc
    cases hm : flagMatch flags match_all p.2 <;>
      simp [getByFlagLoop, VarLabelList.Add, hm, List.filter_cons, ih]

/-- C4: the by-flag selection walks the name-sorted variable map and
returns exactly the variables passing the flag test — included iff the
flag list is empty, or `matchAll` and all flags set, or not `matchAll`
and some flag set — in map order, so the output labels are name-sorted
and repeated calls on an unchanged registry agree. -/
theorem getVariablesByFlag_selection (s : MeshBlockData)
    (flags : List MetadataFlag) (match_all : Bool)
    (hkeys : ∀ p ∈ s.varMap, p.1 = p.2.label)
    (hsorted : (s.varMap.map Prod.fst).Sorted (fun a b => a < b)) :
    (s.GetVariablesByFlag flags match_all [] =
      { labels := (s.varMap.filter fun p => flagMatch flags match_all p.2).map
          fun p => p.2.label,
        alloc_status := (s.varMap.filter fun p => flagMatch flags match_all p.2).map
          fun p => p.2.IsAllocated }) ∧
    ((s.GetVariablesByFlag flags match_all []).labels.Sorted (fun a b => a < b)) ∧
    (∀ lab, lab ∈ (s.GetVariablesByFlag flags match_all []).labels ↔
      ∃ p ∈ s.varMap, flagMatch flags match_all p.2 = true ∧ lab = p.2.label) ∧
    (s.GetVariablesByFlag flags match_all [] =
      s.GetVariablesByFlag flags match_all []) := by
  have hmain : s.GetVariablesByFlag flags match_all [] =
      { labels := (s.varMap.filter fun p => flagMatch flags match_all p.2).map
          fun p => p.2.label,
        alloc_status := (s.varMap.filter fun p => flagMatch flags match_all p.2).map
          fun p => p.2.IsAllocated } := by
    unfold MeshBlockData.GetVariablesByFlag
    rw [getByFlagLoop_spec]
    simp
  refine ⟨hmain, ?_, ?_, rfl⟩
  · rw [hmain]
    have hlab : (s.varMap.filter fun p => flagMatch flags match_all p.2).map
        (fun p => p.2.label) =
        (s.varMap.filter fun p => flagMatch flags match_all p.2).map Prod.fst := by
      apply List.map_congr_left
      intro p hp
      exact (hkeys p (List.mem_of_mem_filter hp)).symm
    rw [hlab]
    exact hsorted.sublist ((List.filter_sublist _).map Prod.fst)
  · intro lab
    rw [hmain]
    simp only [List.mem_map, List.mem_filter]
    constructor
    · rintro ⟨p, ⟨hp, hflag⟩, hlabel⟩
      exact ⟨p, hp, hflag, hlabel.symm⟩
    · rintro ⟨p, hp, hflag, hlabel⟩
      exact ⟨p, ⟨hp, hflag⟩, hlabel.symm⟩

/-- Witness for C4: on a concrete two-variable registry the ghost-flag
selection returns a name-sorted list. -/
theorem getVariablesByFlag_selection_witness :
    ({ varMap := [
        ("a", { label := "a", sparse_id := -1, allocated := true,
                metadata := { Where := MetadataLoc.Cell,
                              flags := [MetadataFlag.FillGhost] } })] } :
      MeshBlockData).GetVariablesByFlag [MetadataFlag.FillGhost] true [] =
      { labels := (([(("a" : String),
          ({ label := "a", sparse_id := -1, allocated := true,
             metadata := { Where := MetadataLoc.Cell,
                           flags := [MetadataFlag.FillGhost] } } : CellVariable))] :
          List (String × CellVariable)).filter
            fun p => flagMatch [MetadataFlag.FillGhost] true p.2).map
          fun p => p.2.label,
        alloc_status := (([(("a" : String),
          ({ label := "a", sparse_id := -1, allocated := true,
             metadata := { Where := MetadataLoc.Cell,
                           flags := [MetadataFlag.FillGhost] } } : CellVariable))] :
          List (String × CellVariable)).filter
            fun p => flagMatch [MetadataFlag.FillGhost] true p.2).map
          fun p => p.2.IsAllocated } :=
  (getVariablesByFlag_selection
    { varMap := [
        ("a", { label := "a", sparse_id := -1, allocated := true,
                metadata := { Where := MetadataLoc.Cell,
                              flags := [MetadataFlag.FillGhost] } })] }
    [MetadataFlag.FillGhost] true (by decide) (by simp)).1

theorem receiveVar_of_complete (poll : String → Bool → Bool) (v : CellVariable)
    (h : v.mpiStatus = true) : receiveVar poll v = v := by
  simp [receiveVar, h]

theorem receiveVar_of_not_ghost (poll : String → Bool → Bool) (v : CellVariable)
    (h : v.IsSet MetadataFlag.FillGhost = false) : receiveVar poll v = v := by
  cases hm : v.mpiStatus <;> simp [receiveVar, hm, h]

theorem receiveVar_of_pending (poll : String → Bool → Bool) (v : CellVariable)
    (h1 : v.mpiStatus = false) (h2 : v.IsSet MetadataFlag.FillGhost = true) :
    receiveVar poll v =
      { v.resetBoundary with mpiStatus := poll v.label v.IsAllocated } := by
  simp [receiveVar, h1, h2]

theorem receiveVar_metadata (poll : String → Bool → Bool) (v : CellVariable) :
    (receiveVar poll v).metadata = v.metadata := by
  cases hm : v.mpiStatus <;> cases hg : v.IsSet MetadataFlag.FillGhost <;>
    simp [receiveVar, hm, hg, CellVariable.resetBoundary]

theorem receiveVar_ghost_iff (poll : String → Bool → Bool) (v : CellVariable) :
    (receiveVar poll v).IsSet MetadataFlag.FillGhost =
      v.IsSet MetadataFlag.FillGhost := by
  simp [CellVariable.IsSet, receiveVar_metadata]

theorem receiveLoop_snd (poll : String → Bool → Bool) :
    ∀ l : List CellVariable, (receiveLoop poll l).2 = l.map (receiveVar poll) := by
  intro l
  induction l with
  | nil => rfl
  | cons v rest ih =>
    cases hm : v.mpiStatus <;> cases hg : v.IsSet MetadataFlag.FillGhost <;>
      simp [receiveLoop, receiveVar, hm, hg, ih]

theorem receiveLoop_fst (poll : String → Bool → Bool) :
    ∀ l : List CellVariable, (receiveLoop poll l).1 =
      (l.map (receiveVar poll)).all
        fun v => !(v.IsSet MetadataFlag.FillGhost) || v.mpiStatus := by
  intro l
  induction l with
  | nil => rfl
  | cons v rest ih =>
    cases hm : v.mpiStatus <;> cases hg : v.IsSet MetadataFlag.FillGhost
    · simp only [receiveLoop, hm, hg, List.map_cons, List.all_cons]
      simp [receiveVar_of_not_ghost poll v hg, ih, hg]
    · simp only [receiveLoop, hm, hg, List.map_cons, List.all_cons]
      simp [ih, receiveVar_ghost_iff, hg]
    · simp only [receiveLoop, hm, hg, List.map_cons, List.all_cons]
      simp [receiveVar_of_complete poll v hm, ih, hg, hm]
    · simp only [receiveLoop, hm, hg, List.map_cons, List.all_cons]
      simp [receiveVar_of_complete poll v hm, ih, hg, hm]

/-- C9: `ReceiveBoundaryBuffers` never errors; it leaves the variable
vector as the per-variable polling map — each ghost-filled variable not
yet complete is polled with its label and current allocation flag and its
completion flag records the verdict, every other variable is untouched —
and it reports `complete` exactly when every ghost-filled variable ends
up complete (already-complete ones count as done). -/
theorem receiveBoundaryBuffers_spec (s : MeshBlockData) (poll : String → Bool → Bool) :
    ((s.ReceiveBoundaryBuffers poll).1 ≠ TaskStatus.fail) ∧
    ((s.ReceiveBoundaryBuffers poll).2.varVector = s.varVector.map (receiveVar poll)) ∧
    ((s.ReceiveBoundaryBuffers poll).1 = TaskStatus.complete ↔
      ∀ v ∈ (s.ReceiveBoundaryBuffers poll).2.varVector,
        v.IsSet MetadataFlag.FillGhost = true → v.mpiStatus = true) ∧
    (∀ v ∈ s.varVector, v.mpiStatus = false →
      v.IsSet MetadataFlag.FillGhost = true →
      receiveVar poll v =
        { v.resetBoundary with mpiStatus := poll v.label v.IsAllocated }) ∧
    (∀ v ∈ s.varVector, v.mpiStatus = true → receiveVar poll v = v) := by
  have h2 : (s.ReceiveBoundaryBuffers poll).2.varVector =
      s.varVector.map (receiveVar poll) := by
    simp [MeshBlockData.ReceiveBoundaryBuffers, receiveLoop_snd]
  have h1 : (s.ReceiveBoundaryBuffers poll).1 =
      if (s.varVector.map (receiveVar poll)).all
          (fun v => !(v.IsSet MetadataFlag.FillGhost) || v.mpiStatus)
        then TaskStatus.complete else TaskStatus.incomplete := by
    simp [MeshBlockData.ReceiveBoundaryBuffers, receiveLoop_fst]
  refine ⟨?_, h2, ?_, ?_, ?_⟩
  · rw [h1]
    cases (s.varVector.map (receiveVar poll)).all
        (fun v => !(v.IsSet MetadataFlag.FillGhost) || v.mpiStatus) <;> simp
  · rw [h1, h2]
    have hb : ∀ b : Bool,
        ((if b then TaskStatus.complete else TaskStatus.incomplete) =
          TaskStatus.complete ↔ b = true) := by
      intro b; cases b <;> simp
    rw [hb, List.all_eq_true]
    constructor
    · intro h v hv hFG
      have hv2 := h v hv
      rw [hFG] at hv2
      simpa using hv2
    · intro h v hv
      cases hFG : v.IsSet MetadataFlag.FillGhost
      · simp
      · simp [h v hv hFG]
  · intro v _ hm hg
    exact receiveVar_of_pending poll v hm hg
  · intro v _ hm
    exact receiveVar_of_complete poll v hm

/-- Witness for C9 on a one-variable container: the post-call variable
vector is the per-variable polling map. -/
theorem receiveBoundaryBuffers_spec_witness :
    (({ varVector := [
        { label := "a", sparse_id := -1, mpiStatus := false,
          metadata := { Where := MetadataLoc.Cell,
                        flags := [MetadataFlag.FillGhost] } }] } :
      MeshBlockData).ReceiveBoundaryBuffers (fun _ alloc => alloc)).2.varVector =
      ([
        { label := "a", sparse_id := -1, mpiStatus := false,
          metadata := { Where := MetadataLoc.Cell,
                        flags := [MetadataFlag.FillGhost] } }] :
        List CellVariable).map (receiveVar (fun _ alloc => alloc)) :=
  (receiveBoundaryBuffers_spec
    { varVector := [
        { label := "a", sparse_id := -1, mpiStatus := false,
          metadata := { Where := MetadataLoc.Cell,
                        flags := [MetadataFlag.FillGhost] } }] }
    (fun _ alloc => alloc)).2.1

theorem startReceivingVar_of_ghost (phase : BoundaryCommSubset) (v : CellVariable)
    (h : v.IsSet MetadataFlag.FillGhost = true) :
    startReceivingVar phase v =
      { (v.resetBoundary.vbvarStartReceiving phase) with mpiStatus := false } := by
  simp [startReceivingVar, h]

theorem startReceivingVar_of_not_ghost (phase : BoundaryCommSubset) (v : CellVariable)
    (h : v.IsSet MetadataFlag.FillGhost = false) :
    startReceivingVar phase v = v := by
  simp [startReceivingVar, h]

theorem startReceivingVar_metadata (phase : BoundaryCommSubset) (v : CellVariable) :
    (startReceivingVar phase v).metadata = v.metadata := by
  cases hg : v.IsSet MetadataFlag.FillGhost <;>
    simp [startReceivingVar, hg, CellVariable.resetBoundary,
      CellVariable.vbvarStartReceiving]

theorem startReceivingVar_ghost_iff (phase : BoundaryCommSubset) (v : CellVariable) :
    (startReceivingVar phase v).IsSet MetadataFlag.FillGhost =
      v.IsSet MetadataFlag.FillGhost := by
  simp [CellVariable.IsSet, startReceivingVar_metadata]

/-- C8: `StartReceiving` first syncs the local neighbors' allocation
states, then resets every ghost-filled variable's channel, posts its
receive for the phase, and clears its completion flag; it always reports
`complete`, and after it every ghost-filled variable's completion flag is
false and can only become true through a successful poll in a subsequent
`ReceiveBoundaryBuffers`. -/
theorem startReceiving_spec (s : MeshBlockData) (neighbors : List (List CellVariable))
    (phase : BoundaryCommSubset) :
    ((s.StartReceiving neighbors phase).1 = TaskStatus.complete) ∧
    ((s.StartReceiving neighbors phase).2 =
      { s.SetLocalNeighborAllocated neighbors with
          varVector := (s.SetLocalNeighborAllocated neighbors).varVector.map
            (startReceivingVar phase) }) ∧
    (∀ v ∈ (s.StartReceiving neighbors phase).2.varVector,
      v.IsSet MetadataFlag.FillGhost = true →
        v.mpiStatus = false ∧ v.boundaryReset = true ∧
        v.postedPhase = some phase.toNat) ∧
    (∀ poll v,
      v ∈ ((s.StartReceiving neighbors phase).2.ReceiveBoundaryBuffers
        poll).2.varVector →
      v.IsSet MetadataFlag.FillGhost = true → v.mpiStatus = true →
      poll v.label v.IsAllocated = true) := by
  have hafter : ∀ v ∈ (s.StartReceiving neighbors phase).2.varVector,
      v.IsSet MetadataFlag.FillGhost = true →
        v.mpiStatus = false ∧ v.boundaryReset = true ∧
        v.postedPhase = some phase.toNat := by
    intro v hv hg
    rcases List.mem_map.mp hv with ⟨u, _, hu⟩
    subst hu
    rw [startReceivingVar_ghost_iff] at hg
    rw [startReceivingVar_of_ghost phase u hg]
    simp [CellVariable.resetBoundary, CellVariable.vbvarStartReceiving]
  refine ⟨rfl, rfl, hafter, ?_⟩
  intro poll v hv hg hm
  have hvec : ((s.StartReceiving neighbors phase).2.ReceiveBoundaryBuffers
      poll).2.varVector =
      ((s.StartReceiving neighbors phase).2.varVector).map (receiveVar poll) := by
    simp [MeshBlockData.ReceiveBoundaryBuffers, receiveLoop_snd]
  rw [hvec] at hv
  rcases List.mem_map.mp hv with ⟨u, hu_mem, hu⟩
  subst hu
  rw [receiveVar_ghost_iff] at hg
  obtain ⟨humpi, _, _⟩ := hafter u hu_mem hg
  rw [receiveVar_of_pending poll u humpi hg] at hm ⊢
  simpa [CellVariable.resetBoundary, CellVariable.IsAllocated] using hm

/-- Witness for C8: on a concrete container, `StartReceiving` reports
`complete`. -/
theorem startReceiving_spec_witness :
    (({ varVector := [
        { label := "a", sparse_id := -1,
          metadata := { Where := MetadataLoc.Cell,
                        flags := [MetadataFlag.FillGhost] } }] } :
      MeshBlockData).StartReceiving [] BoundaryCommSubset.all).1 =
      TaskStatus.complete :=
  (startReceiving_spec
    { varVector := [
        { label := "a", sparse_id := -1,
          metadata := { Where := MetadataLoc.Cell,
                        flags := [MetadataFlag.FillGhost] } }] }
    [] BoundaryCommSubset.all).1

end Parthenon
